import Mathlib

/-!
Verification of the os-dns-native response-decoding engine.

Shallow embedding of `src/binding.cc`: the per-type record decoders
(`asTXT`, `asA`, `asAAAA`, `asCNAME`, `asSRV`, `ResourceRecord::read`),
the response parser (`DNSReponse`), the worker decode loop
(`DNSWorker::Execute`) and the resolver session buffer handling
(`DNSController::Lookup`).

Bytes are modelled as `Nat` values (each `< 256` where it matters);
byte buffers as `List Nat`; C++ `std::runtime_error` exceptions as
`Except String`.  The libresolv routines (`dn_expand`, `ns_initparse`,
`ns_parserr`, `res_nsearch`) are external collaborators of the
repository; they are modelled from the interface description given in the
specification (DNS wire format walking, compression-pointer
expansion with a bounded walk, a resolver returning a length).
-/

namespace OsDnsNative

/-- Read the byte at offset `i` of a message (0 when out of range;
all in-range accesses performed by the embedded code are guarded by
the same bounds checks the C++ performs). -/
def byteAt (msg : List Nat) (i : Nat) : Nat := msg.getD i 0

/-- Big-endian 16-bit value at offset `i`, as produced by `ntohs` on
two message bytes (network byte order). -/
def be16 (msg : List Nat) (i : Nat) : Nat :=
  byteAt msg i * 256 + byteAt msg (i + 1)

/-- Render a byte list as the (C++ `std::string`) string holding
exactly those bytes. -/
def strOf (bs : List Nat) : String := String.mk (bs.map Char.ofNat)

/-- Lowercase hexadecimal digit character for `n < 16`, as printed by
`%x`. -/
def hexDigit (n : Nat) : Char :=
  if n < 10 then Char.ofNat (48 + n) else Char.ofNat (87 + n)

/-- Two-digit zero-padded lowercase hex, as printed by `%02x` for a
byte value. -/
def hex2 (n : Nat) : String :=
  String.mk [hexDigit (n / 16 % 16), hexDigit (n % 16)]

/-- Four-digit zero-padded lowercase hex of a 16-bit value (the
"4-hex-digit group" of the specification). -/
def hex4 (v : Nat) : String :=
  String.mk [hexDigit (v / 4096 % 16), hexDigit (v / 256 % 16),
             hexDigit (v / 16 % 16), hexDigit (v % 16)]

/-- Error text thrown by `ResourceRecord::asTXT` (binding.cc:110). -/
def txtErr : String := "Invalid DNS TXT record received"

/-- Error text thrown by both `ResourceRecord::asA` (binding.cc:121)
and `ResourceRecord::asAAAA` (binding.cc:134). -/
def aErr : String := "Invalid DNS A record receive"

/-- `ResourceRecord::asTXT` (binding.cc:105-113): length-prefixed
character string; fails when the payload is empty or the first byte
exceeds the remaining length, otherwise returns the `data[0]` bytes
after the length byte. -/
def asTXT (data : List Nat) : Except String String :=
  if data.length = 0 ∨ byteAt data 0 > data.length - 1 then
    .error txtErr
  else
    .ok (strOf ((data.drop 1).take (byteAt data 0)))

/-- `ResourceRecord::asCNAME` (binding.cc:145-147): `return asTXT();`. -/
def asCNAME (data : List Nat) : Except String String := asTXT data

/-- `ResourceRecord::asA` (binding.cc:115-126): 4-byte payload printed
with `snprintf "%d.%d.%d.%d"`. -/
def asA (data : List Nat) : Except String String :=
  if data.length ≠ 4 then
    .error aErr
  else
    .ok (Nat.repr (byteAt data 0) ++ "." ++ Nat.repr (byteAt data 1) ++ "." ++
         Nat.repr (byteAt data 2) ++ "." ++ Nat.repr (byteAt data 3))

/-- `ResourceRecord::asAAAA` (binding.cc:128-143): 16-byte payload
printed with `snprintf "%02x%02x:%02x%02x:..."` (eight groups of two
bytes each, no `::` compression). -/
def asAAAA (data : List Nat) : Except String String :=
  if data.length ≠ 16 then
    .error aErr
  else
    .ok (hex2 (byteAt data 0) ++ hex2 (byteAt data 1) ++ ":" ++
         hex2 (byteAt data 2) ++ hex2 (byteAt data 3) ++ ":" ++
         hex2 (byteAt data 4) ++ hex2 (byteAt data 5) ++ ":" ++
         hex2 (byteAt data 6) ++ hex2 (byteAt data 7) ++ ":" ++
         hex2 (byteAt data 8) ++ hex2 (byteAt data 9) ++ ":" ++
         hex2 (byteAt data 10) ++ hex2 (byteAt data 11) ++ ":" ++
         hex2 (byteAt data 12) ++ hex2 (byteAt data 13) ++ ":" ++
         hex2 (byteAt data 14) ++ hex2 (byteAt data 15))

/-- Modelled from the spec: one step of libresolv `dn_expand`
(message-wide DNS name decompression).  Walks labels from offset
`off`: a zero byte ends the name, a byte `≥ 192` is a two-byte
compression pointer back into the message (an out-of-range target
fails), a byte in `64..191` is an invalid label type, and otherwise
the byte is a label length followed by that many label bytes (which
must lie inside the message).  Returns the label list and the number
of bytes the name occupies at the original site (a compression
pointer counts as two bytes and ends the count).  `fuel` bounds the
pointer-following walk, failing on cyclic or malicious pointer
chains. -/
def dnExpandAux (msg : List Nat) : Nat → Nat → Option (List (List Nat) × Nat)
  | 0, _ => none
  | fuel + 1, off =>
    match msg.get? off with
    | none => none
    | some n =>
      if n = 0 then some ([], 1)
      else if n ≥ 192 then
        match msg.get? (off + 1) with
        | none => none
        | some lo =>
          let target := (n - 192) * 256 + lo
          if target ≥ msg.length then none
          else
            match dnExpandAux msg fuel target with
            | none => none
            | some (ls, _) => some (ls, 2)
      else if n ≥ 64 then none
      else if off + 1 + n ≤ msg.length then
        match dnExpandAux msg fuel (off + 1 + n) with
        | none => none
        | some (ls, c) => some ((msg.drop (off + 1)).take n :: ls, 1 + n + c)
      else none

/-- Modelled from the spec: libresolv `dn_expand(start, end, off, buf,
bufsiz)`.  Expands the (possibly compressed) name at `off` against the
whole message, rendering labels joined by periods (the root name
renders as "."), and fails when the expansion is invalid or the
output buffer of size `bufsiz` would be exhausted.  On success the
returned size (the length of the name at the original site) is at least 1,
so the `size < 1` test in the C callers is exactly failure. -/
def dnExpand (msg : List Nat) (bufsiz off : Nat) : Option (String × Nat) :=
  match dnExpandAux msg (msg.length + 1) off with
  | none => none
  | some (ls, c) =>
    let s := if ls.isEmpty then "." else String.intercalate "." (ls.map strOf)
    if s.length + 1 ≤ bufsiz then some (s, c) else none

/-- A `ResourceRecord` view (binding.cc:23-47): the whole message
(`start_` to `end_` is `msg`), the index of the record in the answer
section (`pos_`), and the payload slice returned by `rawData()`
as an offset/length pair (`ns_rr_rdata` / `ns_rr_rdlen`). -/
structure RR where
  msg : List Nat
  pos : Nat
  rdOff : Nat
  rdLen : Nat
  deriving Repr, DecidableEq

/-- The payload bytes `rawData()` designates. -/
def RR.rdata (rr : RR) : List Nat := (rr.msg.drop rr.rdOff).take rr.rdLen

/-- Shared prefix of the two SRV error texts (binding.cc:160,179). -/
def srvErrPre (pos : Nat) : String :=
  "Incorrect result " ++ Nat.repr pos ++ " of SRV answer: "

/-- Error text for the SRV header bounds check (binding.cc:159-162). -/
def srvSizeErr (pos : Nat) : String := srvErrPre pos ++ "Incorrect result size"

/-- Error text for a failed SRV name expansion (binding.cc:178-181). -/
def srvNameErr (pos : Nat) : String := srvErrPre pos ++ "Invalid hostname format"

/-- `ResourceRecord::asSRV` (binding.cc:149-192).  Checks that six
bytes fit between the payload start and the end of the whole message
(`data + sizeof(SrvHeader) > end_`; `data < start_` is impossible in
the view), reads priority, weight and port with `ntohs` from network
byte order, expands the trailing name against the whole message into
an 8192-byte buffer, and renders
`"<name>:<port>,prio=<priority>,weight=<weight>"`. -/
def RR.asSRV (rr : RR) : Except String String :=
  if rr.rdOff + 6 > rr.msg.length then
    .error (srvSizeErr rr.pos)
  else
    let priority := be16 rr.msg rr.rdOff
    let weight := be16 rr.msg (rr.rdOff + 2)
    let port := be16 rr.msg (rr.rdOff + 4)
    match dnExpand rr.msg 8192 (rr.rdOff + 6) with
    | none => .error (srvNameErr rr.pos)
    | some (name, _) =>
      .ok (name ++ ":" ++ Nat.repr port ++ ",prio=" ++ Nat.repr priority ++
           ",weight=" ++ Nat.repr weight)

/-- `ResourceRecord::read` (binding.cc:89-103).  `QueryType` is an
`int`-backed enum cast from a caller-supplied number, so `type` is
modelled by its numeric value (`ns_t_a = 1`, `ns_t_cname = 5`,
`ns_t_txt = 16`, `ns_t_aaaa = 28`, `ns_t_srv = 33`); a value outside
the `switch` falls through to `return ""`. -/
def RR.read (rr : RR) (type : Nat) : Except String String :=
  if type = 1 then asA rr.rdata
  else if type = 28 then asAAAA rr.rdata
  else if type = 33 then rr.asSRV
  else if type = 16 then asTXT rr.rdata
  else if type = 5 then asCNAME rr.rdata
  else .ok ""

/-- Modelled from the spec: libresolv `ns_name_skip` as used while
validating a message section.  Skips over one (possibly compressed)
name starting at `off` without following pointers: a compression
pointer occupies two terminal bytes; labels must stay in bounds.
Returns the offset just past the name. -/
def skipName (msg : List Nat) : Nat → Nat → Option Nat
  | 0, _ => none
  | fuel + 1, off =>
    match msg.get? off with
    | none => none
    | some n =>
      if n = 0 then some (off + 1)
      else if n ≥ 192 then
        if off + 2 ≤ msg.length then some (off + 2) else none
      else if n ≥ 64 then none
      else if off + 1 + n ≤ msg.length then
        skipName msg fuel (off + 1 + n)
      else none

/-- Modelled from the spec: skip one question-section entry (a name
followed by 2-byte type and 2-byte class). -/
def skipQuestion (msg : List Nat) (off : Nat) : Option Nat :=
  match skipName msg (msg.length + 1) off with
  | none => none
  | some o => if o + 4 ≤ msg.length then some (o + 4) else none

/-- Modelled from the spec: skip one resource record (name, 2-byte
type, 2-byte class, 4-byte TTL, 2-byte rdlength, rdlength payload
bytes), checking every read stays inside the message. -/
def skipRR (msg : List Nat) (off : Nat) : Option Nat :=
  match skipName msg (msg.length + 1) off with
  | none => none
  | some o =>
    if o + 10 ≤ msg.length then
      let rdlen := be16 msg (o + 8)
      if o + 10 + rdlen ≤ msg.length then some (o + 10 + rdlen) else none
    else none

/-- Iterate a skipping function `n` times. -/
def skipN (f : Nat → Option Nat) : Nat → Nat → Option Nat
  | 0, off => some off
  | n + 1, off =>
    match f off with
    | none => none
    | some o => skipN f n o

/-- A parsed message handle (libresolv `ns_msg`): the raw bytes, the
question and answer counts of the header, and the offset of the answer
section. -/
structure NsMsg where
  raw : List Nat
  qdcount : Nat
  ancount : Nat
  anOff : Nat
  deriving Repr, DecidableEq

/-- Modelled from the spec: libresolv `ns_initparse`.  Validates the
buffer as a well-formed DNS message: a 12-byte header carrying the
section counts (the answer count in bytes 6-7, big-endian), followed
by the declared number of question entries and of answer, authority
and additional records, each within bounds, with no bytes left over.
Failure corresponds to a nonzero return. -/
def ns_initparse (raw : List Nat) : Option NsMsg :=
  if raw.length < 12 then none
  else
    let qd := be16 raw 4
    let an := be16 raw 6
    let ns := be16 raw 8
    let ar := be16 raw 10
    match skipN (skipQuestion raw) qd 12 with
    | none => none
    | some o1 =>
      match skipN (skipRR raw) an o1 with
      | none => none
      | some o2 =>
        match skipN (skipRR raw) ns o2 with
        | none => none
        | some o3 =>
          match skipN (skipRR raw) ar o3 with
          | none => none
          | some o4 =>
            if o4 = raw.length then some ⟨raw, qd, an, o1⟩ else none

/-- Modelled from the spec: libresolv `ns_parserr` on the answer
section.  Seeks to record `i` (failing for `i` past the declared
count), expands the name of the record itself (into an `NS_MAXDNAME = 1025`
byte buffer; unlike the skip during `ns_initparse` this follows
compression pointers and can fail on an invalid chain), reads the
fixed fields, and yields the record view with its payload offset and
declared rdlength. -/
def ns_parserr (m : NsMsg) (i : Nat) : Option RR :=
  if i ≥ m.ancount then none
  else
    match skipN (skipRR m.raw) i m.anOff with
    | none => none
    | some off =>
      match dnExpand m.raw 1025 off with
      | none => none
      | some (_, c) =>
        let o := off + c
        if o + 10 ≤ m.raw.length then
          let rdlen := be16 m.raw (o + 8)
          if o + 10 + rdlen ≤ m.raw.length then
            some ⟨m.raw, i, o + 10, rdlen⟩
          else none
        else none

/-- Modelled from the spec: the `strerror(errno)` system error text
appended to a record-extraction failure; its exact wording comes from
the C library and is opaque to this development. -/
def strerrorText : String := "system error"

/-- Error text of `DNSReponse::DNSReponse` when `ns_initparse` fails
(binding.cc:202): the response is not a parseable DNS message. -/
def invalidAnswerMsg (search : String) : String :=
  "Invalid DNS answer for \"" ++ search ++ "\""

/-- Error text of `ResourceRecord::ResourceRecord` when `ns_parserr`
fails at index `i` (binding.cc:83-85). -/
def invalidRecordMsg (i : Nat) : String :=
  "Invalid record " ++ Nat.repr i ++ " of DNS answer: " ++ strerrorText

/-- The record-extraction loop of `DNSReponse::DNSReponse`
(binding.cc:208-210): extract `count` records starting at index `i`,
in order; the first `ns_parserr` failure throws
`Invalid record <i> of DNS answer: ...`, abandoning the rest (C++
exception). -/
def extractRecords (m : NsMsg) (i : Nat) : Nat → Except String (List RR)
  | 0 => .ok []
  | count + 1 =>
    match ns_parserr m i with
    | none => .error (invalidRecordMsg i)
    | some rr =>
      match extractRecords m (i + 1) count with
      | .error e => .error e
      | .ok rest => .ok (rr :: rest)

/-- `DNSReponse::DNSReponse` (binding.cc:199-211): parse the message
header; a failure throws `Invalid DNS answer for "<search>"`.  When
the declared answer count is zero the record list stays empty;
otherwise records 0..count-1 are extracted in order. -/
def DNSReponse.make (search : String) (raw : List Nat) : Except String (List RR) :=
  match ns_initparse raw with
  | none => .error (invalidAnswerMsg search)
  | some m => extractRecords m 0 m.ancount

/-- The decode loop of `DNSWorker::Execute` (binding.cc:277-279):
decode each record with the query type, in order; the first thrown
error aborts the loop, and `OnOK` (the success callback) only ever
observes the full vector. -/
def decodeRecords (type : Nat) : List RR → Except String (List String)
  | [] => .ok []
  | rr :: rest =>
    match rr.read type with
    | .error e => .error e
    | .ok s =>
      match decodeRecords type rest with
      | .error e => .error e
      | .ok tail => .ok (s :: tail)

/-- `DNSWorker::Execute` (binding.cc:274-280): perform the decode
phase of the lookup on a raw message — construct the `DNSReponse` and
decode every record with the query type, in wire order.  The outcome
delivered to the caller is the complete string list or an error,
never a prefix. -/
def dnsWorkerExecute (search : String) (type : Nat) (raw : List Nat) :
    Except String (List String) :=
  match DNSReponse.make search raw with
  | .error e => .error e
  | .ok records => decodeRecords type records

/-- `std::vector::resize(n)` on a byte vector: truncate to `n` or pad
with zero bytes up to `n`. -/
def listResize (l : List Nat) (n : Nat) : List Nat :=
  l.take n ++ List.replicate (n - l.length) 0

/-- Modelled from the spec: the `hstrerror(h_errno)` diagnostic text
of a failed query; its exact wording comes from the resolver library
and is opaque to this development. -/
def hstrerrorText : String := "resolver error"

/-- Error text of a failed `res_nsearch` call (binding.cc:240-241). -/
def lookupFailMsg (name : String) : String :=
  "Failed to look up \"" ++ name ++ "\": " ++ hstrerrorText

/-- `DNSController::Lookup` (binding.cc:226-246).  Allocates a 65536
byte receive buffer, calls `res_nsearch` with the name and the
buffer size (the resolver — modelled as the abstract function
`resn` from name and buffer size to a return value and the bytes it
wrote, at most the buffer size of which land in the buffer), fails
when the return value is negative, and otherwise resizes the buffer
to the returned response length. -/
def DNSController.Lookup (resn : String → Nat → Int × List Nat) (name : String) :
    Except String (List Nat) :=
  let answer : List Nat := List.replicate 65536 0
  let r := resn name answer.length
  if r.1 < 0 then .error (lookupFailMsg name)
  else .ok (listResize (listResize r.2 answer.length) r.1.toNat)

/-! ## Helper lemmas -/

theorem string_append_left_cancel {s a b : String} (h : s ++ a = s ++ b) : a = b := by
  have h2 := congrArg String.data h
  simp only [String.data_append] at h2
  exact String.ext (List.append_cancel_left h2)

theorem byteAt_lt_of_forall {msg : List Nat} (h : ∀ b ∈ msg, b < 256) {i : Nat}
    (hi : i < msg.length) : byteAt msg i < 256 := by
  rw [byteAt, List.getD_eq_getElem msg 0 hi]
  exact h _ (List.getElem_mem hi)

theorem hex2_length (n : Nat) : (hex2 n).length = 2 := rfl

theorem hex4_length (v : Nat) : (hex4 v).length = 4 := rfl

theorem hex4_eq_hex2_append {a b : Nat} (hb : b < 256) :
    hex4 (a * 256 + b) = hex2 a ++ hex2 b := by
  have h1 : (a * 256 + b) / 4096 % 16 = a / 16 % 16 := by omega
  have h2 : (a * 256 + b) / 256 % 16 = a % 16 := by omega
  have h3 : (a * 256 + b) / 16 % 16 = b / 16 % 16 := by omega
  have h4 : (a * 256 + b) % 16 = b % 16 := by omega
  simp only [hex4, hex2]
  rw [h1, h2, h3, h4]
  rfl

/-! ## Claim theorems -/

/-- C3: TXT decoding fails with the malformed-record error exactly
when the payload is empty or its first byte exceeds
`payloadLength - 1`; otherwise it deterministically returns the `N`
text bytes following the length byte; and CNAME decoding is the
identical function, agreeing with TXT decoding on every payload. -/
theorem txt_cname_decode_characterization (data : List Nat) :
    asCNAME data = asTXT data ∧
    (asTXT data = Except.error txtErr ↔
      data.length = 0 ∨ byteAt data 0 > data.length - 1) ∧
    (∀ n rest, data = n :: rest → n ≤ rest.length →
      asTXT data = Except.ok (strOf (rest.take n))) := by
  refine ⟨rfl, ?_, ?_⟩
  · unfold asTXT
    split
    · exact iff_of_true rfl (by assumption)
    · exact iff_of_false (fun h => by cases h) (by assumption)
  · rintro n rest rfl hn
    unfold asTXT
    rw [if_neg]
    · rfl
    · push_neg
      exact ⟨by simp, by simpa [byteAt] using hn⟩

theorem txt_cname_decode_characterization_witness :
    asTXT [2, 104, 105] = Except.ok "hi" ∧ asCNAME [0] = asTXT [0] := by
  refine ⟨?_, (txt_cname_decode_characterization [0]).1⟩
  have h := (txt_cname_decode_characterization [2, 104, 105]).2.2 2 [104, 105] rfl
    (by decide)
  rw [h]
  rfl

/-- C4: A decoding fails with the malformed-record error exactly when
the payload length differs from 4 and otherwise produces the four
period-separated decimal numbers of the payload bytes. -/
theorem a_decode_characterization (data : List Nat) :
    (asA data = Except.error aErr ↔ data.length ≠ 4) ∧
    (∀ a b c d, data = [a, b, c, d] →
      asA data = Except.ok (String.intercalate "." ([a, b, c, d].map Nat.repr))) := by
  constructor
  · unfold asA
    split
    · exact iff_of_true rfl (by assumption)
    · exact iff_of_false (fun h => by cases h) (by assumption)
  · rintro a b c d rfl
    rfl

theorem a_decode_characterization_witness :
    asA [192, 168, 0, 255] = Except.ok "192.168.0.255" := by
  have h := (a_decode_characterization [192, 168, 0, 255]).2 192 168 0 255 rfl
  rw [h]
  rfl

/-- C10: for a payload whose length is not 16, AAAA decoding fails
with the message `Invalid DNS A record receive`, character for
character the same text the A decoder emits for a payload whose
length is not 4 — the text names the A record type, so the two
malformed cases are indistinguishable by message. -/
theorem aaaa_error_text_names_a_record (dataA dataQ : List Nat)
    (hA : dataA.length ≠ 4) (hQ : dataQ.length ≠ 16) :
    asA dataA = Except.error "Invalid DNS A record receive" ∧
    asAAAA dataQ = Except.error "Invalid DNS A record receive" := by
  unfold asA asAAAA
  rw [if_pos hA, if_pos hQ]
  exact ⟨rfl, rfl⟩

theorem aaaa_error_text_names_a_record_witness :
    asA [1, 2, 3] = Except.error "Invalid DNS A record receive" ∧
    asAAAA [1, 2, 3] = Except.error "Invalid DNS A record receive" :=
  aaaa_error_text_names_a_record [1, 2, 3] [1, 2, 3] (by decide) (by decide)

/-- C7: `ResourceRecord::read` with a type value outside the
supported set (A = 1, CNAME = 5, TXT = 16, AAAA = 28, SRV = 33)
returns the empty string without failing, whatever the record
holds. -/
theorem unsupported_type_decodes_empty (rr : RR) (type : Nat)
    (h1 : type ≠ 1) (h28 : type ≠ 28) (h33 : type ≠ 33)
    (h16 : type ≠ 16) (h5 : type ≠ 5) :
    rr.read type = Except.ok "" := by
  unfold RR.read
  rw [if_neg h1, if_neg h28, if_neg h33, if_neg h16, if_neg h5]

theorem unsupported_type_decodes_empty_witness :
    (⟨[255, 255, 255], 0, 0, 3⟩ : RR).read 2 = Except.ok "" :=
  unsupported_type_decodes_empty ⟨[255, 255, 255], 0, 0, 3⟩ 2
    (by decide) (by decide) (by decide) (by decide) (by decide)

/-- C9: a TXT/CNAME payload made of a length byte `n`, `n` text
bytes and arbitrary trailing bytes decodes successfully to exactly
the `n` text bytes; every byte after them is silently ignored, so a
payload carrying several length-prefixed strings yields only the
first. -/
theorem txt_ignores_trailing_bytes (n : Nat) (s extra : List Nat) (h : s.length = n) :
    asTXT (n :: (s ++ extra)) = Except.ok (strOf s) ∧
    asCNAME (n :: (s ++ extra)) = Except.ok (strOf s) := by
  subst h
  have key : asTXT (s.length :: (s ++ extra)) = Except.ok (strOf s) := by
    unfold asTXT
    rw [if_neg]
    · have : byteAt (s.length :: (s ++ extra)) 0 = s.length := rfl
      rw [this]
      simp only [List.drop_succ_cons, List.drop_zero, List.take_left]
    · push_neg
      refine ⟨by simp, ?_⟩
      have : byteAt (s.length :: (s ++ extra)) 0 = s.length := rfl
      rw [this]
      simp
  exact ⟨key, key⟩

theorem txt_ignores_trailing_bytes_witness :
    asTXT [2, 104, 105, 3, 97, 98, 99] = Except.ok "hi" := by
  have h := (txt_ignores_trailing_bytes 2 [104, 105] [3, 97, 98, 99] rfl).1
  exact h.trans (by rfl)

/-- The eight 4-hex-digit groups the specification describes: group
`i` is the big-endian 16-bit value of payload bytes `2i` and
`2i + 1`. -/
def aaaaGroups (data : List Nat) : List String :=
  (List.range 8).map fun i => hex4 (be16 data (2 * i))

/-- C5: AAAA decoding fails with the malformed-record error exactly
when the payload length differs from 16; on every 16-byte payload it
produces exactly 8 colon-separated 4-hex-digit groups, each the
big-endian 16-bit value of the corresponding byte pair, with no `::`
compression (every group keeps its 4 digits). -/
theorem aaaa_decode_characterization (data : List Nat) :
    (asAAAA data = Except.error aErr ↔ data.length ≠ 16) ∧
    (data.length = 16 → (∀ b ∈ data, b < 256) →
      asAAAA data = Except.ok (String.intercalate ":" (aaaaGroups data)) ∧
      (aaaaGroups data).length = 8 ∧
      ∀ g ∈ aaaaGroups data, g.length = 4) := by
  constructor
  · unfold asAAAA
    split
    · exact iff_of_true rfl (by assumption)
    · exact iff_of_false (fun h => by cases h) (by assumption)
  · intro hlen hb
    refine ⟨?_, rfl, ?_⟩
    · have e : ∀ i : Nat, i + 1 < 16 →
          hex4 (be16 data i) = hex2 (byteAt data i) ++ hex2 (byteAt data (i + 1)) :=
        fun i hi => hex4_eq_hex2_append (byteAt_lt_of_forall hb (by omega))
      unfold asAAAA
      rw [if_neg (by omega)]
      have hr : String.intercalate ":" (aaaaGroups data) =
          hex4 (be16 data 0) ++ ":" ++ hex4 (be16 data 2) ++ ":" ++
          hex4 (be16 data 4) ++ ":" ++ hex4 (be16 data 6) ++ ":" ++
          hex4 (be16 data 8) ++ ":" ++ hex4 (be16 data 10) ++ ":" ++
          hex4 (be16 data 12) ++ ":" ++ hex4 (be16 data 14) := rfl
      rw [hr, e 0 (by omega), e 2 (by omega), e 4 (by omega), e 6 (by omega),
        e 8 (by omega), e 10 (by omega), e 12 (by omega), e 14 (by omega)]
      apply congrArg
      apply String.ext
      simp [String.data_append, List.append_assoc]
    · intro g hg
      simp only [aaaaGroups, List.mem_map] at hg
      obtain ⟨i, _, rfl⟩ := hg
      exact hex4_length _

theorem aaaa_decode_characterization_witness :
    asAAAA [32, 1, 13, 184, 0, 0, 0, 0, 0, 0, 0, 0, 0, 0, 0, 1] =
      Except.ok "2001:0db8:0000:0000:0000:0000:0000:0001" := by
  have h := ((aaaa_decode_characterization
    [32, 1, 13, 184, 0, 0, 0, 0, 0, 0, 0, 0, 0, 0, 0, 1]).2 (by decide) (by decide)).1
  exact h.trans (by rfl)

/-- C1 (amended): SRV decoding fails with the size error exactly
when fewer than 6 bytes remain between the payload start and the end
of the whole message (the check is against the message end, not the
declared payload length); when at least 6 such bytes remain the
priority, weight and port are the big-endian 16-bit values of those
bytes, the trailing name is expanded against the whole message
(failure there yields the hostname error), and on success the output
is `<expanded-name>:<port>,prio=<priority>,weight=<weight>`. -/
theorem srv_decode_characterization (rr : RR) :
    (rr.asSRV = Except.error (srvSizeErr rr.pos) ↔ rr.msg.length < rr.rdOff + 6) ∧
    (rr.rdOff + 6 ≤ rr.msg.length →
      (dnExpand rr.msg 8192 (rr.rdOff + 6) = none →
        rr.asSRV = Except.error (srvNameErr rr.pos)) ∧
      (∀ name c, dnExpand rr.msg 8192 (rr.rdOff + 6) = some (name, c) →
        rr.asSRV = Except.ok (name ++ ":" ++ Nat.repr (be16 rr.msg (rr.rdOff + 4)) ++
          ",prio=" ++ Nat.repr (be16 rr.msg rr.rdOff) ++
          ",weight=" ++ Nat.repr (be16 rr.msg (rr.rdOff + 2))))) := by
  have hne : srvNameErr rr.pos ≠ srvSizeErr rr.pos := by
    intro h
    have h2 := string_append_left_cancel (s := srvErrPre rr.pos) h
    exact absurd h2 (by decide)
  constructor
  · unfold RR.asSRV
    split
    · exact iff_of_true rfl (by omega)
    · refine iff_of_false ?_ (by omega)
      cases hd : dnExpand rr.msg 8192 (rr.rdOff + 6) with
      | none =>
        simp only [hd]
        intro hc
        exact hne (Except.error.inj hc)
      | some p =>
        simp only [hd]
        intro hc
        cases hc
  · intro hle
    constructor
    · intro hd
      unfold RR.asSRV
      rw [if_neg (by omega)]
      simp only [hd]
    · intro name c hd
      unfold RR.asSRV
      rw [if_neg (by omega)]
      simp only [hd]

/-- The wire form of the uncompressed name `svc.example.com`. -/
def exName : List Nat :=
  [3, 115, 118, 99, 7, 101, 120, 97, 109, 112, 108, 101, 3, 99, 111, 109, 0]

/-- The SRV example payload of the specification: priority 1,
weight 2, port 80, then `svc.example.com`. -/
def exMsg : List Nat := [0, 1, 0, 2, 0, 80] ++ exName

/-- The example payload viewed as a whole-message record. -/
def exRR : RR := ⟨exMsg, 0, 0, 6 + exName.length⟩

theorem srv_decode_characterization_witness :
    exRR.asSRV = Except.ok "svc.example.com:80,prio=1,weight=2" := by
  have h := ((srv_decode_characterization exRR).2 (by decide)).2
    "svc.example.com" 17 (by decide)
  exact h.trans (by rfl)

/-- A response declaring two SRV answers whose first record has
rdlength 0: its payload holds no bytes at all, yet six message bytes
(the start of the second record) remain past its payload start. -/
def c1msg : List Nat :=
  [0, 0, 0, 0, 0, 0, 0, 2, 0, 0, 0, 0] ++
  [0, 0, 33, 0, 1, 0, 0, 0, 0, 0, 0] ++
  [0, 0, 33, 0, 1, 0, 0, 0, 0, 0, 7, 0, 0, 0, 0, 0, 0, 0]

/-- C1 counterexample: the first record of `c1msg` carries fewer
than 6 payload bytes (its rdlength is 0), yet SRV decoding does not
fail — the bounds check is against the end of the whole message, so
the decoder reads the 6 header bytes and the name out of the bytes
of the following record and succeeds. -/
theorem srv_short_payload_still_decodes :
    DNSReponse.make "example.com" c1msg =
      Except.ok [⟨c1msg, 0, 23, 0⟩, ⟨c1msg, 1, 34, 7⟩] ∧
    (⟨c1msg, 0, 23, 0⟩ : RR).rdLen = 0 ∧
    (⟨c1msg, 0, 23, 0⟩ : RR).read 33 = Except.ok ".:256,prio=0,weight=8448" := by
  exact ⟨by rfl, rfl, by rfl⟩

theorem extractRecords_ok_length (m : NsMsg) :
    ∀ (count i : Nat) (l : List RR),
      extractRecords m i count = Except.ok l → l.length = count := by
  intro count
  induction count with
  | zero =>
    intro i l h
    cases h
    rfl
  | succ k ih =>
    intro i l h
    simp only [extractRecords] at h
    cases hp : ns_parserr m i with
    | none =>
      simp only [hp] at h
      exact Except.noConfusion h
    | some rr =>
      simp only [hp] at h
      cases he : extractRecords m (i + 1) k with
      | error e =>
        simp only [he] at h
        exact Except.noConfusion h
      | ok rest =>
        simp only [he] at h
        cases h
        simp [ih (i + 1) rest he]

theorem decodeRecords_ok_length (type : Nat) :
    ∀ (records : List RR) (l : List String),
      decodeRecords type records = Except.ok l → l.length = records.length := by
  intro records
  induction records with
  | nil =>
    intro l h
    cases h
    rfl
  | cons rr rest ih =>
    intro l h
    simp only [decodeRecords] at h
    cases hr : rr.read type with
    | error e =>
      simp only [hr] at h
      exact Except.noConfusion h
    | ok s =>
      simp only [hr] at h
      cases hd : decodeRecords type rest with
      | error e =>
        simp only [hd] at h
        exact Except.noConfusion h
      | ok tail =>
        simp only [hd] at h
        cases h
        simp [ih tail hd]

theorem extractRecords_first_error (m : NsMsg) :
    ∀ (count start i : Nat), start ≤ i → i < start + count →
      (∀ j, start ≤ j → j < i → ns_parserr m j ≠ none) →
      ns_parserr m i = none →
      extractRecords m start count = Except.error (invalidRecordMsg i) := by
  intro count
  induction count with
  | zero =>
    intro start i h1 h2 _ _
    omega
  | succ k ih =>
    intro start i h1 h2 hok hfail
    by_cases hs : start = i
    · subst hs
      simp only [extractRecords, hfail]
    · have hsome := hok start le_rfl (by omega)
      cases hp : ns_parserr m start with
      | none => exact absurd hp hsome
      | some rr =>
        simp only [extractRecords, hp]
        rw [ih (start + 1) i (by omega) (by omega)
          (fun j hj1 hj2 => hok j (by omega) hj2) hfail]

/-- C2 (amended): decoding is all-or-nothing — every outcome is
either an error or a full list holding one decoded string per
declared answer record; and when record extraction fails at the first
failing index `i`, the lookup fails with
`Invalid record <i> of DNS answer: <cause>`, naming that index.
A failure inside the type-specific decode step also fails the whole
lookup, but its message is the decoder text, which names the index
only for SRV records (see the counterexample). -/
theorem lookup_all_or_nothing (search : String) (type : Nat) (raw : List Nat) :
    ((∃ e, dnsWorkerExecute search type raw = Except.error e) ∨
      (∃ m l, ns_initparse raw = some m ∧
        dnsWorkerExecute search type raw = Except.ok l ∧ l.length = m.ancount)) ∧
    (∀ m i, ns_initparse raw = some m → i < m.ancount →
      (∀ j, j < i → ns_parserr m j ≠ none) → ns_parserr m i = none →
      dnsWorkerExecute search type raw = Except.error (invalidRecordMsg i)) := by
  constructor
  · cases hi : ns_initparse raw with
    | none =>
      exact Or.inl ⟨invalidAnswerMsg search,
        by simp [dnsWorkerExecute, DNSReponse.make, hi]⟩
    | some m =>
      cases he : extractRecords m 0 m.ancount with
      | error e =>
        exact Or.inl ⟨e, by simp [dnsWorkerExecute, DNSReponse.make, hi, he]⟩
      | ok records =>
        cases hd : decodeRecords type records with
        | error e =>
          exact Or.inl ⟨e, by simp [dnsWorkerExecute, DNSReponse.make, hi, he, hd]⟩
        | ok l =>
          refine Or.inr ⟨m, l, rfl,
            by simp [dnsWorkerExecute, DNSReponse.make, hi, he, hd], ?_⟩
          exact (decodeRecords_ok_length type records l hd).trans
            (extractRecords_ok_length m m.ancount 0 records he)
  · intro m i hi hcount hok hfail
    have hext := extractRecords_first_error m m.ancount 0 i (Nat.zero_le i)
      (by omega) (fun j _ hj => hok j hj) hfail
    simp [dnsWorkerExecute, DNSReponse.make, hi, hext]

/-- A response declaring one answer record whose name is a
compression pointer to offset 255, past the end of the message: the
section walk of `ns_initparse` accepts it (a pointer is two opaque
bytes there), but `ns_parserr` must expand the name and fails. -/
def c2wmsg : List Nat :=
  [0, 0, 0, 0, 0, 0, 0, 1, 0, 0, 0, 0] ++
  [192, 255, 0, 1, 0, 1, 0, 0, 0, 0, 0, 0]

theorem lookup_all_or_nothing_witness :
    dnsWorkerExecute "example.com" 33 c2wmsg =
      Except.error (invalidRecordMsg 0) := by
  exact (lookup_all_or_nothing "example.com" 33 c2wmsg).2 ⟨c2wmsg, 0, 1, 12⟩ 0
    (by decide) (by decide) (fun j hj => absurd hj (Nat.not_lt_zero j)) (by decide)

/-- A response declaring one answer record of type A whose rdlength
is 2 instead of 4; its framing is well-formed, so the failure occurs
in the type-specific decode step. -/
def c2msg : List Nat :=
  [0, 0, 0, 0, 0, 0, 0, 1, 0, 0, 0, 0] ++
  [0, 0, 1, 0, 1, 0, 0, 0, 0, 0, 2, 1, 2]

/-- C2 counterexample: on `c2msg` the record at index 0 fails
type-specific decoding, and the whole lookup fails — but with the
text `Invalid DNS A record receive`, which carries neither the
failing index nor an underlying cause; it is not the
`Invalid record 0 of DNS answer: ...` form the claim requires. -/
theorem decode_failure_error_lacks_index :
    dnsWorkerExecute "example.com" 1 c2msg = Except.error aErr ∧
    aErr ≠ invalidRecordMsg 0 := by
  exact ⟨by rfl, by decide⟩

/-- C6: a raw message accepted by the header/section parse and
declaring zero answer records yields the empty result list as a
successful outcome; a message the parse rejects fails with
`Invalid DNS answer for "<search>"`, carrying the originating query
name. -/
theorem zero_answers_yield_empty_result (search : String) (type : Nat) (raw : List Nat) :
    (∀ m, ns_initparse raw = some m → m.ancount = 0 →
      dnsWorkerExecute search type raw = Except.ok []) ∧
    (ns_initparse raw = none →
      dnsWorkerExecute search type raw = Except.error (invalidAnswerMsg search)) := by
  constructor
  · intro m hm h0
    simp [dnsWorkerExecute, DNSReponse.make, hm, h0, extractRecords, decodeRecords]
  · intro hm
    simp [dnsWorkerExecute, DNSReponse.make, hm]

theorem zero_answers_yield_empty_result_witness :
    dnsWorkerExecute "example.com" 1 (List.replicate 12 0) = Except.ok [] ∧
    dnsWorkerExecute "example.com" 1 [] =
      Except.error (invalidAnswerMsg "example.com") :=
  ⟨(zero_answers_yield_empty_result "example.com" 1 (List.replicate 12 0)).1
      ⟨List.replicate 12 0, 0, 0, 12⟩ (by decide) rfl,
    (zero_answers_yield_empty_result "example.com" 1 []).2 (by decide)⟩

theorem listResize_length (l : List Nat) (n : Nat) : (listResize l n).length = n := by
  simp [listResize, List.length_take]
  omega

/-- C8: the receive buffer is allocated at the maximum DNS message
size of 65536 bytes — the resolver is consulted with exactly that
buffer size — and on a successful query (a non-negative return) the
raw message handed onward has length exactly the response length the
resolver reported. -/
theorem lookup_buffer_sizing (resn : String → Nat → Int × List Nat) (name : String)
    (h : 0 ≤ (resn name 65536).1) :
    ∃ l, DNSController.Lookup resn name = Except.ok l ∧
      l.length = (resn name 65536).1.toNat := by
  refine ⟨listResize (listResize (resn name 65536).2 65536) (resn name 65536).1.toNat,
    ?_, listResize_length _ _⟩
  simp only [DNSController.Lookup, List.length_replicate]
  rw [if_neg (by omega)]

theorem lookup_buffer_sizing_witness :
    ∃ l, DNSController.Lookup (fun _ _ => ((5 : Int), [9, 8, 7, 6, 5, 4, 3]))
        "host.example" = Except.ok l ∧ l.length = 5 := by
  exact lookup_buffer_sizing (fun _ _ => ((5 : Int), [9, 8, 7, 6, 5, 4, 3]))
    "host.example" (by decide)

end OsDnsNative
